import Mathlib

/-!
Verification of `token_manager.py` (token refresh orchestrator).

Shallow embedding: the module-level constants, the Zone Refresh Engine
(`refresh_zone`), the Staleness Monitor loop body (`check_token_validity`),
the Remote File Store write (`update_github_file`) and the Auth Token
Fetcher (`get_auth_token`) are translated into Lean.  External I/O
(config file, auth service, GitHub store, webhook) is supplied by an
environment record `Env`; observable actions are collected in an effect
trace.  Machine integers do not occur; timestamps are modelled as `Int`
microseconds (Python `datetime` arithmetic is exact to the microsecond).
-/

/-- `ZONES = ["br", "ind", "bd"]` from the source. -/
def ZONES : List String := ["br", "ind", "bd"]

/-- `MAX_TOKENS = 110` from the source. -/
def MAX_TOKENS : Nat := 110

/-- `STALE_TOKEN_HOURS = 6` from the source. -/
def STALE_TOKEN_HOURS : Nat := 6

/-- `timedelta(hours=STALE_TOKEN_HOURS)` in microseconds, the unit in which
we model `datetime` differences. -/
def staleMicros : Int := (STALE_TOKEN_HOURS : Int) * 3600 * 1000000

/-- ASCII lower-casing of one character, modelling Python `str.lower` on the
ASCII fragment (zone identifiers are ASCII). -/
def lowerChar (c : Char) : Char :=
  if 'A' ≤ c ∧ c ≤ 'Z' then Char.ofNat (c.toNat + 32) else c

/-- `zone.lower()` (line 106), restricted to ASCII strings. -/
def lowerStr (s : String) : String := ⟨s.data.map lowerChar⟩

/-- `os.path.join(LOCAL_CONFIG_DIR, f"config_{zone}.json")` (line 112). -/
def configPathOf (z : String) : String := "configs/config_" ++ z ++ ".json"

/-- `f"tokens/token_{zone}.json"` (line 113). -/
def tokenPathOf (z : String) : String := "tokens/token_" ++ z ++ ".json"

/-- One record of a zone's account list.  A field is `some v` when the JSON
key (`uid` / `password`) is present with string value `v`, `none` when the
key is absent, mirroring Python's `'uid' in acc` membership test. -/
structure Account where
  uid : Option String
  password : Option String
  deriving DecidableEq, Repr

/-- `'uid' in acc and 'password' in acc` followed by the lookups
`acc['uid']`, `acc['password']` (lines 136-138). -/
def creds (a : Account) : Option (String × String) :=
  match a.uid, a.password with
  | some u, some p => some (u, p)
  | _, _ => none

/-- The distinct Discord notification messages of the source, one
constructor per `notify_discord` call site. -/
inductive Msg where
  | unknownZone (z : String)
  | refreshing (z : String)
  | configMissing (path : String)
  | progress (z : String) (processed total : Nat)
  | summary (z : String) (ok fail : Nat)
  | updated (path : String) (n : Nat)
  | updateFailed (path : String)
  | blank
  | tokensExpired (z : String)
  | errorInZone (z : String) (e : String)
  deriving DecidableEq, Repr

/-- Observable actions of the orchestrator: webhook notifications, auth
endpoint calls, store content reads, conditional store writes (with the
outcome the remote reported), commit-history queries, and updates of the
in-process `last_commit_times` cache. -/
inductive Eff where
  | notify (m : Msg)
  | authFetch (uid pw : String)
  | storeRead (path : String)
  | storeWrite (path content : String) (ok : Bool)
  | commitQuery (path : String)
  | setLastCommit (z : String)
  deriving DecidableEq, Repr

/-- The external world as seen by the orchestrator.  `Except String α`
results model Python calls that may raise (the `String` is the exception
text); `Option`/`Bool` results model calls whose wrapper already swallows
its exceptions. -/
structure Env where
  /-- `os.path.exists(config_path)` (line 118). -/
  configExists : String → Bool
  /-- `open` + `json.load` of the config file (lines 123-124); may raise. -/
  configLoad : String → Except String (List Account)
  /-- `get_auth_token` result for one credential pair (never raises:
  the fetcher catches everything, see `get_auth_token`). -/
  fetch : String → String → Option String
  /-- the `sha` component of `get_github_file_content` (line 150);
  the surrounding network calls may raise. -/
  readSha : String → Except String (Option String)
  /-- the boolean result of `update_github_file path content sha`
  (line 153); never raises (it catches everything, see
  `update_github_file`). -/
  writeOk : String → String → Option String → Bool
  /-- `get_github_file_commit_info` (line 184): last-commit timestamp in
  microseconds, `none` when the path has no history; may raise. -/
  commitInfo : String → Except String (Option Int)

/-- Python truthiness of a token value: `if token:` (line 139) is false
for `None` and for the empty string. -/
def truthy (o : Option String) : Bool :=
  match o with
  | some t => !(t == "")
  | none => false

/-- State threaded through the account loop of `refresh_zone`
(lines 129-145): `tokens`, `count_success`, `count_fail`,
`processed_count`, plus the effect trace emitted so far. -/
structure FetchSt where
  tokens : List String
  ok : Nat
  fail : Nat
  processed : Nat
  trace : List Eff
  deriving Repr

/-- One iteration of `for acc in accounts:` (lines 135-145): if both
credential fields are present, fetch a token, count it and (when truthy)
append it; then, in every iteration, emit a progress notification when
`processed_count % 20 == 0`. -/
def fetchStep (env : Env) (zone : String) (total : Nat) (st : FetchSt) (acc : Account) : FetchSt :=
  let st1 :=
    match creds acc with
    | some (u, p) =>
      let t := env.fetch u p
      let tr := st.trace ++ [Eff.authFetch u p]
      if truthy t then
        { tokens := st.tokens ++ [t.getD ""], ok := st.ok + 1, fail := st.fail,
          processed := st.processed + 1, trace := tr }
      else
        { st with fail := st.fail + 1, processed := st.processed + 1, trace := tr }
    | none => st
  if st1.processed % 20 == 0 then
    { st1 with trace := st1.trace ++ [Eff.notify (Msg.progress zone st1.processed total)] }
  else st1

/-- The whole account loop, started from the zero state of lines 129-132. -/
def fetchRun (env : Env) (zone : String) (accs : List Account) : FetchSt :=
  accs.foldl (fetchStep env zone accs.length)
    { tokens := [], ok := 0, fail := 0, processed := 0, trace := [] }

/-- JSON string escaping of `json.dumps` for the characters it always
escapes (backslash, quote, and the common control characters). -/
def jsonEscapeChar (c : Char) : String :=
  if c = '\\' then "\\\\"
  else if c = '"' then "\\\""
  else if c = '\n' then "\\n"
  else if c = '\t' then "\\t"
  else if c = '\r' then "\\r"
  else String.singleton c

/-- Escape a token string as `json.dumps` would. -/
def jsonEscape (s : String) : String :=
  s.data.foldl (fun acc c => acc ++ jsonEscapeChar c) ""

/-- `json.dumps(tokens, indent=2)` (line 153) where `tokens` is the list
of `{"token": t}` records: `"[]"` for the empty batch, otherwise the
two-space-indented array of one-field objects. -/
def serializeBatch (tokens : List String) : String :=
  match tokens with
  | [] => "[]"
  | _ =>
    let item := fun (t : String) =>
      "  \x7b\n    \"token\": \"" ++ jsonEscape t ++ "\"\n  \x7d"
    "[\n" ++ String.intercalate ",\n" (tokens.map item) ++ "\n]"

/-- Body of the `try:` block of `refresh_zone` (lines 111-159) for an
already-lower-cased configured zone `z`.  Returns the effect trace and
`some e` when a modelled call raised exception `e` (the exception aborts
the body; effects already emitted stay in the trace). -/
def refreshBody (env : Env) (z : String) : List Eff × Option String :=
  let configPath := configPathOf z
  let tokenPath := tokenPathOf z
  let tr0 := [Eff.notify (Msg.refreshing z)]
  if env.configExists configPath = false then
    (tr0 ++ [Eff.notify (Msg.configMissing configPath)], none)
  else
    match env.configLoad configPath with
    | .error e => (tr0, some e)
    | .ok config =>
      let accounts := config.take MAX_TOKENS
      let st := fetchRun env z accounts
      let tr1 := tr0 ++ st.trace ++ [Eff.notify (Msg.summary z st.ok st.fail)]
      let tr2 := tr1 ++ [Eff.storeRead tokenPath]
      match env.readSha tokenPath with
      | .error e => (tr2, some e)
      | .ok sha =>
        let content := serializeBatch st.tokens
        let okW := env.writeOk tokenPath content sha
        let tr3 := tr2 ++ [Eff.storeWrite tokenPath content okW]
        if okW then
          (tr3 ++ [Eff.setLastCommit z, Eff.notify (Msg.updated tokenPath st.tokens.length)], none)
        else
          (tr3 ++ [Eff.notify (Msg.updateFailed tokenPath)], none)

/-- `refresh_zone` (lines 105-161): lower-case the zone, reject unknown
zones with a single notification, otherwise run the body and convert any
exception into the `❌ Error in zone` notification (lines 160-161). -/
def refresh_zone (env : Env) (zone : String) : List Eff :=
  let z := lowerStr zone
  if ZONES.contains z then
    match refreshBody env z with
    | (tr, none) => tr
    | (tr, some e) => tr ++ [Eff.notify (Msg.errorInZone z e)]
  else [Eff.notify (Msg.unknownZone z)]

/-- Per-zone body of the Staleness Monitor loop (lines 182-193): query the
last-commit time; if present and strictly older than the threshold, emit
the two notifications and refresh.  `some e` in the second component is an
exception that nothing in `check_token_validity` catches. -/
def checkZone (env : Env) (now : Int) (zone : String) : List Eff × Option String :=
  let tokenPath := tokenPathOf zone
  let tr0 := [Eff.commitQuery tokenPath]
  match env.commitInfo tokenPath with
  | .error e => (tr0, some e)
  | .ok none => (tr0, none)
  | .ok (some t) =>
    if staleMicros < now - t then
      (tr0 ++ [Eff.notify Msg.blank, Eff.notify (Msg.tokensExpired zone)] ++ refresh_zone env zone,
       none)
    else (tr0, none)

/-- One full iteration of the `while True:` loop of `check_token_validity`
(lines 181-196): the zones are checked in order; an uncaught exception
stops the iteration (and with it the loop) at once. -/
def checkIteration (env : Env) (now : Int) : List Eff × Option String :=
  ZONES.foldl
    (fun acc zone =>
      match acc.2 with
      | some _ => acc
      | none =>
        let r := checkZone env now zone
        (acc.1 ++ r.1, r.2))
    ([], none)

/-- Outcome of the single `session.put` inside `update_github_file`:
either an HTTP status code or a raised exception. -/
inductive PutOutcome where
  | status (code : Nat)
  | exn (e : String)
  deriving DecidableEq, Repr

/-- `update_github_file` (lines 77-91): `r.status in [200, 201]` on a
response, `False` when the `put` raises. -/
def update_github_file (o : PutOutcome) : Bool :=
  match o with
  | .status c => c = 200 || c = 201
  | .exn _ => false

/-- Outcome of the single `session.get` inside `get_auth_token`: a raised
network/timeout exception, or a response with a status code and — read
only on status 200 — the result of `(await res.json()).get("token")`:
`.error` when `json()` raises on a malformed body, `.ok none` when the
parsed object has no `token` field, `.ok (some t)` when it has one. -/
inductive AuthResp where
  | exn (e : String)
  | resp (status : Nat) (tokenField : Except String (Option String))
  deriving Repr

/-- `get_auth_token` (lines 94-102): the token field of a 200 JSON
response; `None` for any other status; `None` when anything raises. -/
def get_auth_token (r : AuthResp) : Option String :=
  match r with
  | .exn _ => none
  | .resp s body =>
    if s = 200 then
      match body with
      | .error _ => none
      | .ok tok => tok
    else none

/-- Apply the successful conditional writes of a trace to a store state
(path ↦ content).  Modelled from the spec (§4.1, §6): a write the remote
reports successful replaces the file's content whole; a failed write
leaves the store unchanged. -/
def applyStore (store : String → Option String) : List Eff → (String → Option String)
  | [] => store
  | Eff.storeWrite p c true :: rest =>
    applyStore (fun q => if q = p then some c else store q) rest
  | _ :: rest => applyStore store rest

/-- The in-order list of tokens the account loop keeps: credentialed
records whose fetch yields a truthy (present, non-empty) token, in list
order. -/
def successTokens (env : Env) (accs : List Account) : List String :=
  accs.filterMap fun a =>
    match creds a with
    | some (u, p) =>
      match env.fetch u p with
      | some t => if t == "" then none else some t
      | none => none
    | none => none

/-- Number of credentialed records whose fetch came back falsy
(absent or empty), i.e. the records the loop counts in `count_fail`. -/
def failCount (env : Env) (accs : List Account) : Nat :=
  accs.countP fun a =>
    match creds a with
    | some (u, p) => !truthy (env.fetch u p)
    | none => false

/-- Number of progress notifications the account loop emits, stated as the
spec would: starting from a running count `p` of processed credentialed
records, one notification after every record at which the running count is
divisible by 20. -/
def progressSpecCount (p : Nat) : List Account → Nat
  | [] => 0
  | a :: rest =>
    let p1 := if (creds a).isSome then p + 1 else p
    (if p1 % 20 == 0 then 1 else 0) + progressSpecCount p1 rest

/-- Is an effect a call to the auth endpoint? -/
def isAuthFetch : Eff → Bool
  | Eff.authFetch _ _ => true
  | _ => false

/-- Is an effect a network call to the store or the auth endpoint
(notifications and the in-process cache are not)? -/
def isNetworkEff : Eff → Bool
  | Eff.authFetch _ _ => true
  | Eff.storeRead _ => true
  | Eff.storeWrite _ _ _ => true
  | Eff.commitQuery _ => true
  | _ => false

/-- Is an effect a conditional store write? -/
def isStoreWrite : Eff → Bool
  | Eff.storeWrite _ _ _ => true
  | _ => false

/-- Is an effect a progress notification? -/
def isProgressNotify : Eff → Bool
  | Eff.notify (Msg.progress _ _ _) => true
  | _ => false

/-- Is an effect the `⚠️ Failed to update` notification? -/
def isUpdateFailedNotify : Eff → Bool
  | Eff.notify (Msg.updateFailed _) => true
  | _ => false


/-- A concrete world: config present with one credentialed account, every
fetch succeeds, the store accepts the write, history present at time 0. -/
def envOk : Env where
  configExists := fun _ => true
  configLoad := fun _ => .ok [{ uid := some "u", password := some "p" }]
  fetch := fun _ _ => some "tk"
  readSha := fun _ => .ok (some "s0")
  writeOk := fun _ _ _ => true
  commitInfo := fun _ => .ok (some 0)

/-- A concrete world whose store rejects every write. -/
def envFailWrite : Env where
  configExists := fun _ => true
  configLoad := fun _ => .ok [{ uid := some "u", password := some "p" }]
  fetch := fun _ _ => some "tk"
  readSha := fun _ => .ok (some "s0")
  writeOk := fun _ _ _ => false
  commitInfo := fun _ => .ok (some 0)

/-- A concrete world where every auth fetch fails. -/
def envNoTok : Env where
  configExists := fun _ => true
  configLoad := fun _ => .ok [{ uid := some "u", password := some "p" }]
  fetch := fun _ _ => none
  readSha := fun _ => .ok (some "s0")
  writeOk := fun _ _ _ => true
  commitInfo := fun _ => .ok (some 0)

/-- A concrete world whose account list holds a single record that lacks
the `uid` field. -/
def envSkip : Env where
  configExists := fun _ => true
  configLoad := fun _ => .ok [{ uid := none, password := some "p" }]
  fetch := fun _ _ => some "tk"
  readSha := fun _ => .ok (some "s0")
  writeOk := fun _ _ _ => true
  commitInfo := fun _ => .ok (some 0)

/-- A concrete world where the commit-history query for zone `br` raises a
network exception. -/
def envExnBr : Env where
  configExists := fun _ => true
  configLoad := fun _ => .ok [{ uid := some "u", password := some "p" }]
  fetch := fun _ _ => some "tk"
  readSha := fun _ => .ok (some "s0")
  writeOk := fun _ _ _ => true
  commitInfo := fun p => if p == tokenPathOf "br" then .error "ConnectionError" else .ok (some 0)

/-! ### Helper lemmas about the account loop -/

lemma fetchFold_spec (env : Env) (zone : String) (total : Nat) :
    ∀ (accs : List Account) (st : FetchSt),
      (accs.foldl (fetchStep env zone total) st).tokens
        = st.tokens ++ successTokens env accs
      ∧ (accs.foldl (fetchStep env zone total) st).ok
        = st.ok + (successTokens env accs).length
      ∧ (accs.foldl (fetchStep env zone total) st).fail
        = st.fail + failCount env accs
      ∧ (accs.foldl (fetchStep env zone total) st).processed
        = st.processed + accs.countP (fun a => (creds a).isSome)
      ∧ ((accs.foldl (fetchStep env zone total) st).trace.countP isAuthFetch)
        = st.trace.countP isAuthFetch + accs.countP (fun a => (creds a).isSome)
      ∧ ((accs.foldl (fetchStep env zone total) st).trace.countP isProgressNotify)
        = st.trace.countP isProgressNotify + progressSpecCount st.processed accs := by
  intro accs
  induction accs with
  | nil =>
    intro st
    simp [successTokens, failCount, progressSpecCount]
  | cons a rest ih =>
    intro st
    have hsucc : successTokens env (a :: rest)
        = (match creds a with
            | some (u, p) =>
              (match env.fetch u p with
                | some t => if t == "" then [] else [t]
                | none => [])
            | none => []) ++ successTokens env rest := by
      rcases h : creds a with _ | ⟨u, p⟩
      · simp [successTokens, h]
      · rcases hf : env.fetch u p with _ | t
        · simp [successTokens, h, hf]
        · by_cases he : t = ""
          · simp [successTokens, List.filterMap_cons, h, hf, he]
          · simp [successTokens, List.filterMap_cons, h, hf, he]
    simp only [List.foldl_cons]
    rcases ih (fetchStep env zone total st a) with ⟨h1, h2, h3, h4, h5, h6⟩
    refine ⟨?_, ?_, ?_, ?_, ?_, ?_⟩
    · rw [h1, hsucc]
      rcases h : creds a with _ | ⟨u, p⟩
      · simp [fetchStep, h]
        split <;> simp
      · rcases hf : env.fetch u p with _ | t
        · simp [fetchStep, h, hf, truthy]
          split <;> simp
        · by_cases he : t == ""
          · simp [fetchStep, h, hf, truthy, he]
            split <;> simp
          · simp [fetchStep, h, hf, truthy, he]
            split <;> simp
    · rw [h2, hsucc]
      rcases h : creds a with _ | ⟨u, p⟩
      · simp [fetchStep, h]
        split <;> simp
      · rcases hf : env.fetch u p with _ | t
        · simp [fetchStep, h, hf, truthy]
          split <;> simp
        · by_cases he : t == ""
          · simp [fetchStep, h, hf, truthy, he]
            split <;> simp
          · simp [fetchStep, h, hf, truthy, he]
            split <;> simp [Nat.add_comm, Nat.add_assoc, Nat.add_left_comm]
    · rw [h3]
      have hfail : failCount env (a :: rest)
          = (match creds a with
              | some (u, p) => if truthy (env.fetch u p) then 0 else 1
              | none => 0) + failCount env rest := by
        rcases h : creds a with _ | ⟨u, p⟩
        · simp [failCount, h, List.countP_cons]
        · by_cases ht : truthy (env.fetch u p)
          · simp [failCount, h, List.countP_cons, ht]
          · simp [failCount, h, List.countP_cons, ht]
            omega
      rw [hfail]
      rcases h : creds a with _ | ⟨u, p⟩
      · simp [fetchStep, h]
        split <;> simp
      · by_cases ht : truthy (env.fetch u p)
        · simp [fetchStep, h, ht]
          split <;> simp
        · simp [fetchStep, h, ht]
          split <;> simp [Nat.add_comm, Nat.add_assoc, Nat.add_left_comm]
    · rw [h4]
      rcases h : creds a with _ | ⟨u, p⟩
      · simp [fetchStep, h, List.countP_cons]
        split <;> simp
      · by_cases ht : truthy (env.fetch u p)
        · simp [fetchStep, h, ht, List.countP_cons]
          split <;> simp <;> omega
        · simp [fetchStep, h, ht, List.countP_cons]
          split <;> simp <;> omega
    · rw [h5]
      rcases h : creds a with _ | ⟨u, p⟩
      · simp [fetchStep, h, List.countP_cons]
        split <;> simp [isAuthFetch, isProgressNotify]
      · by_cases ht : truthy (env.fetch u p)
        · simp [fetchStep, h, ht, List.countP_cons]
          split <;> simp [isAuthFetch, isProgressNotify, List.countP_cons] <;> omega
        · simp [fetchStep, h, ht, List.countP_cons]
          split <;> simp [isAuthFetch, isProgressNotify, List.countP_cons] <;> omega
    · rw [h6]
      have hprog : progressSpecCount st.processed (a :: rest)
          = (if (if (creds a).isSome then st.processed + 1 else st.processed) % 20 == 0
              then 1 else 0)
            + progressSpecCount
                (if (creds a).isSome then st.processed + 1 else st.processed) rest := by
        simp [progressSpecCount]
      rw [hprog]
      rcases h : creds a with _ | ⟨u, p⟩
      · simp only [fetchStep, h]
        by_cases hm : st.processed % 20 == 0
        · simp [hm, List.countP_append, isProgressNotify, List.countP_cons]
          omega
        · simp [hm]
      · by_cases ht : truthy (env.fetch u p)
        · simp only [fetchStep, h, ht, if_pos]
          by_cases hm : (st.processed + 1) % 20 == 0
          · simp [ht, hm, List.countP_append, isProgressNotify, List.countP_cons]
            omega
          · simp [ht, hm, List.countP_append, isProgressNotify, List.countP_cons]
        · simp only [fetchStep, h]
          by_cases hm : (st.processed + 1) % 20 == 0
          · simp [ht, hm, List.countP_append, isProgressNotify, List.countP_cons]
            omega
          · simp [ht, hm, List.countP_append, isProgressNotify, List.countP_cons]

lemma fetchRun_tokens (env : Env) (zone : String) (accs : List Account) :
    (fetchRun env zone accs).tokens = successTokens env accs := by
  have h := (fetchFold_spec env zone accs.length accs
    { tokens := [], ok := 0, fail := 0, processed := 0, trace := [] }).1
  simpa [fetchRun] using h

lemma fetchRun_ok (env : Env) (zone : String) (accs : List Account) :
    (fetchRun env zone accs).ok = (successTokens env accs).length := by
  have h := (fetchFold_spec env zone accs.length accs
    { tokens := [], ok := 0, fail := 0, processed := 0, trace := [] }).2.1
  simpa [fetchRun] using h

lemma fetchRun_fail (env : Env) (zone : String) (accs : List Account) :
    (fetchRun env zone accs).fail = failCount env accs := by
  have h := (fetchFold_spec env zone accs.length accs
    { tokens := [], ok := 0, fail := 0, processed := 0, trace := [] }).2.2.1
  simpa [fetchRun] using h

lemma fetchRun_authCount (env : Env) (zone : String) (accs : List Account) :
    (fetchRun env zone accs).trace.countP isAuthFetch
      = accs.countP (fun a => (creds a).isSome) := by
  have h := (fetchFold_spec env zone accs.length accs
    { tokens := [], ok := 0, fail := 0, processed := 0, trace := [] }).2.2.2.2.1
  simpa [fetchRun] using h

lemma fetchRun_progressCount (env : Env) (zone : String) (accs : List Account) :
    (fetchRun env zone accs).trace.countP isProgressNotify
      = progressSpecCount 0 accs := by
  have h := (fetchFold_spec env zone accs.length accs
    { tokens := [], ok := 0, fail := 0, processed := 0, trace := [] }).2.2.2.2.2
  simpa [fetchRun] using h

/-- Every effect one loop step adds to the trace is an auth fetch or a
progress notification. -/
lemma fetchStep_trace_shape (env : Env) (zone : String) (total : Nat)
    (st : FetchSt) (a : Account) (e : Eff)
    (he : e ∈ (fetchStep env zone total st a).trace) :
    e ∈ st.trace ∨ isAuthFetch e = true ∨ isProgressNotify e = true := by
  rcases h : creds a with _ | ⟨u, p⟩
  · simp only [fetchStep, h] at he
    split at he
    · simp at he
      rcases he with he | he
      · exact Or.inl he
      · subst he
        right; right; rfl
    · exact Or.inl he
  · by_cases ht : truthy (env.fetch u p)
    · simp only [fetchStep, h, ht, if_pos] at he
      split at he
      · simp at he
        rcases he with he | he | he
        · exact Or.inl he
        · subst he
          right; left; rfl
        · subst he
          right; right; rfl
      · simp at he
        rcases he with he | he
        · exact Or.inl he
        · subst he
          right; left; rfl
    · simp only [fetchStep, h, ht, Bool.false_eq_true, if_false] at he
      split at he
      · simp at he
        rcases he with he | he | he
        · exact Or.inl he
        · subst he
          right; left; rfl
        · subst he
          right; right; rfl
      · simp at he
        rcases he with he | he
        · exact Or.inl he
        · subst he
          right; left; rfl

/-- Every effect the account loop adds to the trace is an auth fetch or a
progress notification. -/
lemma fetchFold_trace_shape (env : Env) (zone : String) (total : Nat) :
    ∀ (accs : List Account) (st : FetchSt) (e : Eff),
      e ∈ (accs.foldl (fetchStep env zone total) st).trace →
      e ∈ st.trace ∨ isAuthFetch e = true ∨ isProgressNotify e = true := by
  intro accs
  induction accs with
  | nil =>
    intro st e he
    exact Or.inl he
  | cons a rest ih =>
    intro st e he
    rw [List.foldl_cons] at he
    rcases ih (fetchStep env zone total st a) e he with hmem | hrest
    · exact fetchStep_trace_shape env zone total st a e hmem
    · exact Or.inr hrest

lemma fetchRun_trace_shape (env : Env) (zone : String) (accs : List Account)
    (e : Eff) (he : e ∈ (fetchRun env zone accs).trace) :
    isAuthFetch e = true ∨ isProgressNotify e = true := by
  rcases fetchFold_trace_shape env zone accs.length accs
    { tokens := [], ok := 0, fail := 0, processed := 0, trace := [] } e he with h | h
  · simp at h
  · exact h

/-- The three configured zone identifiers are already lower-case. -/
lemma lowerStr_fixed_of_zone (z : String) (hz : ZONES.contains z = true) :
    lowerStr z = z := by
  have : z = "br" ∨ z = "ind" ∨ z = "bd" := by
    simpa [ZONES] using hz
  rcases this with h | h | h <;> subst h <;> decide

/-- Unfolding of `refresh_zone` on the main path: configured zone, config
present and loadable, sha read succeeds. -/
lemma refresh_zone_main (env : Env) (z : String) (config : List Account)
    (sha : Option String)
    (hz : ZONES.contains z = true)
    (hcfg : env.configExists (configPathOf z) = true)
    (hload : env.configLoad (configPathOf z) = .ok config)
    (hsha : env.readSha (tokenPathOf z) = .ok sha) :
    refresh_zone env z =
      [Eff.notify (Msg.refreshing z)]
      ++ (fetchRun env z (config.take MAX_TOKENS)).trace
      ++ [Eff.notify (Msg.summary z (fetchRun env z (config.take MAX_TOKENS)).ok
            (fetchRun env z (config.take MAX_TOKENS)).fail)]
      ++ [Eff.storeRead (tokenPathOf z)]
      ++ [Eff.storeWrite (tokenPathOf z)
            (serializeBatch (fetchRun env z (config.take MAX_TOKENS)).tokens)
            (env.writeOk (tokenPathOf z)
              (serializeBatch (fetchRun env z (config.take MAX_TOKENS)).tokens) sha)]
      ++ (if env.writeOk (tokenPathOf z)
              (serializeBatch (fetchRun env z (config.take MAX_TOKENS)).tokens) sha then
            [Eff.setLastCommit z,
             Eff.notify (Msg.updated (tokenPathOf z)
               (fetchRun env z (config.take MAX_TOKENS)).tokens.length)]
          else
            [Eff.notify (Msg.updateFailed (tokenPathOf z))]) := by
  have hzm : z ∈ ZONES := by simpa using hz
  by_cases hw : env.writeOk (tokenPathOf z)
      (serializeBatch (fetchRun env z (config.take MAX_TOKENS)).tokens) sha = true
  · simp [refresh_zone, refreshBody, lowerStr_fixed_of_zone z hz, hzm, hcfg, hload, hsha, hw]
  · simp [refresh_zone, refreshBody, lowerStr_fixed_of_zone z hz, hzm, hcfg, hload, hsha, hw]

/-! ### Helper lemmas about the store state and the refresh trace -/

lemma applyStore_append :
    ∀ (l1 l2 : List Eff) (store : String → Option String),
      applyStore store (l1 ++ l2) = applyStore (applyStore store l1) l2 := by
  intro l1
  induction l1 with
  | nil =>
    intro l2 store
    rfl
  | cons a rest ih =>
    intro l2 store
    cases a with
    | storeWrite p c ok =>
      cases ok
      · simp only [List.cons_append, applyStore]
        exact ih l2 store
      · simp only [List.cons_append, applyStore]
        exact ih l2 _
    | notify m =>
      simp only [List.cons_append, applyStore]
      exact ih l2 store
    | authFetch u pw =>
      simp only [List.cons_append, applyStore]
      exact ih l2 store
    | storeRead p =>
      simp only [List.cons_append, applyStore]
      exact ih l2 store
    | commitQuery p =>
      simp only [List.cons_append, applyStore]
      exact ih l2 store
    | setLastCommit z =>
      simp only [List.cons_append, applyStore]
      exact ih l2 store

lemma applyStore_no_success :
    ∀ (l : List Eff) (store : String → Option String),
      (∀ p c, Eff.storeWrite p c true ∉ l) → applyStore store l = store := by
  intro l
  induction l with
  | nil =>
    intro store _
    rfl
  | cons a rest ih =>
    intro store hno
    have hrest : ∀ p c, Eff.storeWrite p c true ∉ rest := by
      intro p c hc
      exact hno p c (List.mem_cons_of_mem a hc)
    cases a with
    | storeWrite p c ok =>
      cases ok
      · simp only [applyStore]
        exact ih store hrest
      · exact (hno p c (List.mem_cons_self _ _)).elim
    | notify m =>
      simp only [applyStore]
      exact ih store hrest
    | authFetch u pw =>
      simp only [applyStore]
      exact ih store hrest
    | storeRead p =>
      simp only [applyStore]
      exact ih store hrest
    | commitQuery p =>
      simp only [applyStore]
      exact ih store hrest
    | setLastCommit z =>
      simp only [applyStore]
      exact ih store hrest

/-- Effects added by the account loop are never store writes, never the
failure/success notifications of the publish step, and never cache
updates. -/
lemma fetch_eff_benign (e : Eff)
    (h : isAuthFetch e = true ∨ isProgressNotify e = true) :
    isStoreWrite e = false ∧ isUpdateFailedNotify e = false
    ∧ (∀ p c b, e ≠ Eff.storeWrite p c b) ∧ (∀ z, e ≠ Eff.setLastCommit z)
    ∧ (∀ pa n, e ≠ Eff.notify (Msg.updated pa n)) := by
  cases e with
  | notify m =>
    cases m <;> simp [isAuthFetch, isProgressNotify, isStoreWrite, isUpdateFailedNotify] at h ⊢
  | authFetch u pw =>
    simp [isStoreWrite, isUpdateFailedNotify]
  | storeRead p =>
    simp [isAuthFetch, isProgressNotify] at h
  | storeWrite p c b =>
    simp [isAuthFetch, isProgressNotify] at h
  | commitQuery p =>
    simp [isAuthFetch, isProgressNotify] at h
  | setLastCommit z =>
    simp [isAuthFetch, isProgressNotify] at h

/-- Each credentialed account is counted exactly once, as a success or as
a failure. -/
lemma success_add_fail (env : Env) :
    ∀ accs : List Account,
      (successTokens env accs).length + failCount env accs
        = accs.countP (fun a => (creds a).isSome) := by
  intro accs
  induction accs with
  | nil =>
    simp [successTokens, failCount]
  | cons a rest ih =>
    rcases h : creds a with _ | ⟨u, p⟩
    · have h1 : successTokens env (a :: rest) = successTokens env rest := by
        simp [successTokens, List.filterMap_cons, h]
      have h2 : failCount env (a :: rest) = failCount env rest := by
        simp [failCount, List.countP_cons, h]
      rw [h1, h2, ih]
      simp [List.countP_cons, h]
    · rcases hf : env.fetch u p with _ | t
      · have : (successTokens env (a :: rest)).length = (successTokens env rest).length := by
          simp [successTokens, List.filterMap_cons, h, hf]
        simp only [this]
        have hfail : failCount env (a :: rest) = failCount env rest + 1 := by
          simp [failCount, List.countP_cons, h, hf, truthy]
        rw [hfail]
        simp [List.countP_cons, h]
        omega
      · by_cases he : t = ""
        · have hlen : (successTokens env (a :: rest)).length = (successTokens env rest).length := by
            simp [successTokens, List.filterMap_cons, h, hf, he]
          have hfail : failCount env (a :: rest) = failCount env rest + 1 := by
            simp [failCount, List.countP_cons, h, hf, he, truthy]
          rw [hlen, hfail]
          simp [List.countP_cons, h]
          omega
        · have hlen : (successTokens env (a :: rest)).length = (successTokens env rest).length + 1 := by
            simp [successTokens, List.filterMap_cons, h, hf, he]
          have hfail : failCount env (a :: rest) = failCount env rest := by
            simp [failCount, List.countP_cons, h, hf, he, truthy]
          rw [hlen, hfail]
          simp [List.countP_cons, h]
          omega

/-- With the zone configured and the config loadable, the refresh trace is
the refreshing notification, then the account-loop trace, then a tail that
contains no auth fetch and no progress notification (whatever the store
read and write did). -/
lemma refresh_zone_trace_split (env : Env) (z : String) (config : List Account)
    (hz : ZONES.contains z = true)
    (hcfg : env.configExists (configPathOf z) = true)
    (hload : env.configLoad (configPathOf z) = .ok config) :
    ∃ tail : List Eff,
      refresh_zone env z
        = Eff.notify (Msg.refreshing z)
            :: ((fetchRun env z (config.take MAX_TOKENS)).trace ++ tail)
      ∧ ∀ e ∈ tail, isAuthFetch e = false ∧ isProgressNotify e = false := by
  have hzm : z ∈ ZONES := by simpa using hz
  rcases hsha : env.readSha (tokenPathOf z) with e | sha
  · refine ⟨[Eff.notify (Msg.summary z (fetchRun env z (config.take MAX_TOKENS)).ok
        (fetchRun env z (config.take MAX_TOKENS)).fail),
      Eff.storeRead (tokenPathOf z),
      Eff.notify (Msg.errorInZone z e)], ?_, ?_⟩
    · simp [refresh_zone, refreshBody, lowerStr_fixed_of_zone z hz, hzm, hcfg, hload, hsha]
    · intro e' he'
      simp only [List.mem_cons, List.not_mem_nil, or_false] at he'
      rcases he' with h | h | h <;> subst h <;> exact ⟨rfl, rfl⟩
  · by_cases hw : env.writeOk (tokenPathOf z)
        (serializeBatch (fetchRun env z (config.take MAX_TOKENS)).tokens) sha = true
    · refine ⟨[Eff.notify (Msg.summary z (fetchRun env z (config.take MAX_TOKENS)).ok
          (fetchRun env z (config.take MAX_TOKENS)).fail),
        Eff.storeRead (tokenPathOf z),
        Eff.storeWrite (tokenPathOf z)
          (serializeBatch (fetchRun env z (config.take MAX_TOKENS)).tokens)
          (env.writeOk (tokenPathOf z)
            (serializeBatch (fetchRun env z (config.take MAX_TOKENS)).tokens) sha),
        Eff.setLastCommit z,
        Eff.notify (Msg.updated (tokenPathOf z)
          (fetchRun env z (config.take MAX_TOKENS)).tokens.length)], ?_, ?_⟩
      · simp [refresh_zone, refreshBody, lowerStr_fixed_of_zone z hz, hzm, hcfg, hload, hsha, hw]
      · intro e' he'
        simp only [List.mem_cons, List.not_mem_nil, or_false] at he'
        rcases he' with h | h | h | h | h <;> subst h <;> exact ⟨rfl, rfl⟩
    · refine ⟨[Eff.notify (Msg.summary z (fetchRun env z (config.take MAX_TOKENS)).ok
          (fetchRun env z (config.take MAX_TOKENS)).fail),
        Eff.storeRead (tokenPathOf z),
        Eff.storeWrite (tokenPathOf z)
          (serializeBatch (fetchRun env z (config.take MAX_TOKENS)).tokens)
          (env.writeOk (tokenPathOf z)
            (serializeBatch (fetchRun env z (config.take MAX_TOKENS)).tokens) sha),
        Eff.notify (Msg.updateFailed (tokenPathOf z))], ?_, ?_⟩
      · simp [refresh_zone, refreshBody, lowerStr_fixed_of_zone z hz, hzm, hcfg, hload, hsha, hw]
      · intro e' he'
        simp only [List.mem_cons, List.not_mem_nil, or_false] at he'
        rcases he' with h | h | h | h <;> subst h <;> exact ⟨rfl, rfl⟩

/-- The auth fetches of a refresh cycle are exactly those of the account
loop. -/
lemma refresh_zone_authCount (env : Env) (z : String) (config : List Account)
    (hz : ZONES.contains z = true)
    (hcfg : env.configExists (configPathOf z) = true)
    (hload : env.configLoad (configPathOf z) = .ok config) :
    (refresh_zone env z).countP isAuthFetch
      = (config.take MAX_TOKENS).countP (fun a => (creds a).isSome) := by
  rcases refresh_zone_trace_split env z config hz hcfg hload with ⟨tail, heq, htail⟩
  rw [heq]
  have htail0 : tail.countP isAuthFetch = 0 := by
    rw [List.countP_eq_zero]
    intro e he
    simp [(htail e he).1]
  rw [List.countP_cons, List.countP_append, htail0,
    fetchRun_authCount env z (config.take MAX_TOKENS)]
  simp [isAuthFetch]

/-- The progress notifications of a refresh cycle are exactly those of the
account loop. -/
lemma refresh_zone_progressCount (env : Env) (z : String) (config : List Account)
    (hz : ZONES.contains z = true)
    (hcfg : env.configExists (configPathOf z) = true)
    (hload : env.configLoad (configPathOf z) = .ok config) :
    (refresh_zone env z).countP isProgressNotify
      = progressSpecCount 0 (config.take MAX_TOKENS) := by
  rcases refresh_zone_trace_split env z config hz hcfg hload with ⟨tail, heq, htail⟩
  rw [heq]
  have htail0 : tail.countP isProgressNotify = 0 := by
    rw [List.countP_eq_zero]
    intro e he
    simp [(htail e he).2]
  rw [List.countP_cons, List.countP_append, htail0,
    fetchRun_progressCount env z (config.take MAX_TOKENS)]
  simp [isProgressNotify]

/-! ### Claim theorems -/

/-- C1: for a refresh cycle of a configured zone that ends with a
successful store write, the published batch is exactly the in-order list
of tokens of the successful auth fetches (one record per success, in fetch
order), its length equals the success count, and an account whose fetch
returned absent contributes no record (`successTokens` keeps only present,
non-empty results — the loop's `if token:` success test). -/
theorem c1_batch_one_record_per_success (env : Env) (z : String)
    (config : List Account) (sha : Option String)
    (hz : ZONES.contains z = true)
    (hcfg : env.configExists (configPathOf z) = true)
    (hload : env.configLoad (configPathOf z) = .ok config)
    (hsha : env.readSha (tokenPathOf z) = .ok sha)
    (hwrite : env.writeOk (tokenPathOf z)
      (serializeBatch (successTokens env (config.take MAX_TOKENS))) sha = true) :
    (fetchRun env z (config.take MAX_TOKENS)).tokens
        = successTokens env (config.take MAX_TOKENS)
    ∧ Eff.storeWrite (tokenPathOf z)
        (serializeBatch (successTokens env (config.take MAX_TOKENS))) true
        ∈ refresh_zone env z
    ∧ (fetchRun env z (config.take MAX_TOKENS)).ok
        = (successTokens env (config.take MAX_TOKENS)).length := by
  have ht := fetchRun_tokens env z (config.take MAX_TOKENS)
  refine ⟨ht, ?_, fetchRun_ok env z (config.take MAX_TOKENS)⟩
  rw [refresh_zone_main env z config sha hz hcfg hload hsha, ht, hwrite]
  simp

/-- Witness for C1 at a concrete one-account world. -/
theorem c1_witness :
    Eff.storeWrite (tokenPathOf "br")
      (serializeBatch (successTokens envOk
        (List.take MAX_TOKENS [{ uid := some "u", password := some "p" }]))) true
      ∈ refresh_zone envOk "br" :=
  (c1_batch_one_record_per_success envOk "br"
    [{ uid := some "u", password := some "p" }] (some "s0")
    (by decide) rfl rfl rfl rfl).2.1

/-- C3: a refresh cycle of a configured zone with a loadable account list
attempts exactly one auth fetch per credentialed record of the truncated
list — hence at most `min N MAX_TOKENS` fetches for a list of `N` records
— and a record missing `uid` or `password` is neither attempted nor
counted as a success or a failure. -/
theorem c3_attempt_bound_and_silent_skip (env : Env) (z : String)
    (config : List Account)
    (hz : ZONES.contains z = true)
    (hcfg : env.configExists (configPathOf z) = true)
    (hload : env.configLoad (configPathOf z) = .ok config) :
    (refresh_zone env z).countP isAuthFetch
        = (config.take MAX_TOKENS).countP (fun a => (creds a).isSome)
    ∧ (refresh_zone env z).countP isAuthFetch ≤ min config.length MAX_TOKENS
    ∧ (fetchRun env z (config.take MAX_TOKENS)).ok
        + (fetchRun env z (config.take MAX_TOKENS)).fail
        = (config.take MAX_TOKENS).countP (fun a => (creds a).isSome) := by
  have h1 := refresh_zone_authCount env z config hz hcfg hload
  refine ⟨h1, ?_, ?_⟩
  · rw [h1]
    have h2 := List.countP_le_length (p := fun a => (creds a).isSome)
      (l := config.take MAX_TOKENS)
    have h3 : (config.take MAX_TOKENS).length = min MAX_TOKENS config.length :=
      List.length_take MAX_TOKENS config
    omega
  · rw [fetchRun_ok, fetchRun_fail, success_add_fail]

/-- Witness for C3 at a concrete one-account world. -/
theorem c3_witness :
    (refresh_zone envOk "br").countP isAuthFetch
      ≤ min (List.length ([{ uid := some "u", password := some "p" }] : List Account))
          MAX_TOKENS :=
  (c3_attempt_bound_and_silent_skip envOk "br"
    [{ uid := some "u", password := some "p" }] (by decide) rfl rfl).2.1

/-- C6: the store write returns a boolean, `true` exactly when the remote
reported status 200 or 201, `false` for every other status and whenever
the transport raised — it never re-raises to its caller. -/
theorem c6_store_write_result (o : PutOutcome) :
    (update_github_file o = true
      ↔ o = PutOutcome.status 200 ∨ o = PutOutcome.status 201)
    ∧ ∀ e, update_github_file (PutOutcome.exn e) = false := by
  refine ⟨?_, fun e => rfl⟩
  cases o with
  | status c => simp [update_github_file]
  | exn e => simp [update_github_file]

/-- C8: the auth fetcher yields the token value exactly when the single
response has status 200 with a parsed body containing the `token` field;
a non-200 status, a body whose parse raised, a missing field, or a raised
network/timeout error all yield absent.  The model consumes exactly one
response: no retry. -/
theorem c8_auth_fetch_result (r : AuthResp) (t : String) :
    get_auth_token r = some t
      ↔ r = AuthResp.resp 200 (Except.ok (some t)) := by
  cases r with
  | exn e => simp [get_auth_token]
  | resp s body =>
    by_cases hs : s = 200
    · subst hs
      cases body with
      | error e => simp [get_auth_token]
      | ok tok => simp [get_auth_token]
    · simp [get_auth_token, hs]

/-- C9 (amended): the number of progress notifications of a refresh cycle
equals the spec-side count `progressSpecCount 0`: one notification after
every account iteration at which the running processed count is divisible
by 20 (count 0 included, duplicates included when records are skipped);
the loop outcome — batch, success and failure counts — is a pure function
of the environment and the account list, independent of notifications. -/
theorem c9_progress_each_divisible_by_20 (env : Env) (z : String)
    (config : List Account)
    (hz : ZONES.contains z = true)
    (hcfg : env.configExists (configPathOf z) = true)
    (hload : env.configLoad (configPathOf z) = .ok config) :
    (refresh_zone env z).countP isProgressNotify
        = progressSpecCount 0 (config.take MAX_TOKENS)
    ∧ (fetchRun env z (config.take MAX_TOKENS)).tokens
        = successTokens env (config.take MAX_TOKENS)
    ∧ (fetchRun env z (config.take MAX_TOKENS)).fail
        = failCount env (config.take MAX_TOKENS) :=
  ⟨refresh_zone_progressCount env z config hz hcfg hload,
   fetchRun_tokens env z (config.take MAX_TOKENS),
   fetchRun_fail env z (config.take MAX_TOKENS)⟩

/-- Witness for C9's amended theorem at a concrete world. -/
theorem c9_witness :
    (refresh_zone envSkip "br").countP isProgressNotify
      = progressSpecCount 0
          (List.take MAX_TOKENS [{ uid := none, password := some "p" }]) :=
  (c9_progress_each_divisible_by_20 envSkip "br"
    [{ uid := none, password := some "p" }] (by decide) rfl rfl).1

/-- C9 counterexample: with a single record lacking `uid`, the loop emits
a progress notification reporting 0 processed accounts — 0 is not a
positive multiple of 20, so the claim's "only at positive multiples of 20"
is false of the code. -/
theorem c9_counterexample :
    Eff.notify (Msg.progress "br" 0 1) ∈ refresh_zone envSkip "br" := by
  decide

/-- C2: in the Staleness Monitor's per-zone check, the refresh (preceded
by its two notifications) runs iff the last-commit timestamp is present
and strictly older than `STALE_TOKEN_HOURS`; exactly at the boundary
nothing is triggered, and an absent timestamp triggers nothing. -/
theorem c2_staleness_trigger_iff (env : Env) (now : Int) (zone : String) :
    ((checkZone env now zone).1
        = [Eff.commitQuery (tokenPathOf zone), Eff.notify Msg.blank,
           Eff.notify (Msg.tokensExpired zone)] ++ refresh_zone env zone
      ↔ ∃ t, env.commitInfo (tokenPathOf zone) = .ok (some t)
          ∧ staleMicros < now - t)
    ∧ (∀ t, env.commitInfo (tokenPathOf zone) = .ok (some t)
        → now - t = staleMicros
        → (checkZone env now zone).1 = [Eff.commitQuery (tokenPathOf zone)])
    ∧ (env.commitInfo (tokenPathOf zone) = .ok none
        → (checkZone env now zone).1 = [Eff.commitQuery (tokenPathOf zone)]) := by
  rcases hci : env.commitInfo (tokenPathOf zone) with e | o
  · refine ⟨⟨?_, ?_⟩, ?_, ?_⟩
    · intro h
      simp only [checkZone, hci] at h
      have hl := congrArg List.length h
      simp [List.length_append] at hl
    · rintro ⟨t, ht, _⟩
      exact absurd ht (by simp)
    · intro t ht _
      exact absurd ht (by simp)
    · intro h
      exact absurd h (by simp)
  · rcases o with _ | t
    · refine ⟨⟨?_, ?_⟩, ?_, ?_⟩
      · intro h
        simp only [checkZone, hci] at h
        have hl := congrArg List.length h
        simp [List.length_append] at hl
      · rintro ⟨t, ht, _⟩
        exact absurd ht (by simp)
      · intro t ht _
        exact absurd ht (by simp)
      · intro _
        simp [checkZone, hci]
    · by_cases hc : staleMicros < now - t
      · refine ⟨⟨?_, ?_⟩, ?_, ?_⟩
        · intro _
          exact ⟨t, rfl, hc⟩
        · intro _
          simp [checkZone, hci, hc]
        · intro t' ht' heq
          have htt : t = t' := by
            simpa using ht'
          exfalso
          omega
        · intro h
          exact absurd h (by simp)
      · refine ⟨⟨?_, ?_⟩, ?_, ?_⟩
        · intro h
          simp only [checkZone, hci] at h
          rw [if_neg hc] at h
          have hl := congrArg List.length h
          simp [List.length_append] at hl
        · rintro ⟨t', ht', hc'⟩
          have htt : t = t' := by
            simpa using ht'
          subst htt
          exact absurd hc' hc
        · intro t' ht' heq
          simp [checkZone, hci, hc]
        · intro h
          exact absurd h (by simp)

/-- Witness for C2 at a concrete stale world: with last commit at 0 and
`now` one microsecond past the threshold, the refresh is triggered. -/
theorem c2_witness :
    (checkZone envOk (staleMicros + 1) "br").1
      = [Eff.commitQuery (tokenPathOf "br"), Eff.notify Msg.blank,
         Eff.notify (Msg.tokensExpired "br")] ++ refresh_zone envOk "br" :=
  (c2_staleness_trigger_iff envOk (staleMicros + 1) "br").1.mpr
    ⟨0, rfl, by decide⟩

/-- C4 (amended): for every input whose lower-cased form is outside the
configured zone set, the refresh emits exactly the one rejection
notification — no network call to the store or auth endpoint and no store
state change. -/
theorem c4_unknown_zone_rejected (env : Env) (zone : String)
    (h : ZONES.contains (lowerStr zone) = false) :
    refresh_zone env zone = [Eff.notify (Msg.unknownZone (lowerStr zone))]
    ∧ (refresh_zone env zone).countP isNetworkEff = 0
    ∧ ∀ store, applyStore store (refresh_zone env zone) = store := by
  have hnm : ¬ (ZONES.contains (lowerStr zone) = true) := by
    rw [h]
    simp
  have h1 : refresh_zone env zone = [Eff.notify (Msg.unknownZone (lowerStr zone))] := by
    simp only [refresh_zone]
    rw [if_neg hnm]
  refine ⟨h1, ?_, ?_⟩
  · rw [h1]
    simp [isNetworkEff]
  · intro store
    rw [h1]
    rfl

/-- Witness for C4's amended theorem at the unknown identifier `us`. -/
theorem c4_witness :
    refresh_zone envOk "us" = [Eff.notify (Msg.unknownZone (lowerStr "us"))] :=
  (c4_unknown_zone_rejected envOk "us" (by decide)).1

/-- C4 counterexample: `"BR"` is not an element of the configured set
`ZONES = ["br", "ind", "bd"]`, yet `refresh_zone` on input `"BR"` is not
rejected: it lower-cases first and proceeds, calling the auth endpoint —
so the claim's "for every input zone identifier not in the configured set,
zero network calls" is false of the code. -/
theorem c4_counterexample :
    ZONES.contains "BR" = false
    ∧ Eff.authFetch "u" "p" ∈ refresh_zone envOk "BR"
    ∧ refresh_zone envOk "BR" ≠ [Eff.notify (Msg.unknownZone (lowerStr "BR"))] := by
  refine ⟨by decide, by decide, by decide⟩

/-- C5 (amended): every exception inside a zone's refresh cycle is caught
at the cycle boundary and reported via one error notification, so the only
uncaught exception a monitor-loop zone check can propagate is one raised
by the commit-info (staleness) query itself. -/
theorem c5_cycle_exceptions_caught :
    (∀ (env : Env) (now : Int) (zone e : String),
        (checkZone env now zone).2 = some e
        → env.commitInfo (tokenPathOf zone) = .error e)
    ∧ (∀ (env : Env) (zone : String) (tr : List Eff) (e : String),
        ZONES.contains zone = true
        → refreshBody env zone = (tr, some e)
        → refresh_zone env zone = tr ++ [Eff.notify (Msg.errorInZone zone e)]) := by
  constructor
  · intro env now zone e h
    rcases hci : env.commitInfo (tokenPathOf zone) with e' | o
    · simp only [checkZone, hci] at h
      simp at h
      rw [h]
    · rcases o with _ | t
      · simp [checkZone, hci] at h
      · by_cases hc : staleMicros < now - t <;> simp [checkZone, hci, hc] at h
  · intro env zone tr e hz hbody
    have hzm : zone ∈ ZONES := by
      simpa using hz
    simp [refresh_zone, lowerStr_fixed_of_zone zone hz, hzm, hbody]

/-- Witness for C5's amended theorem at a concrete raising world. -/
theorem c5_witness :
    envExnBr.commitInfo (tokenPathOf "br") = .error "ConnectionError" :=
  c5_cycle_exceptions_caught.1 envExnBr 0 "br" "ConnectionError" rfl

/-- C5 counterexample: a network exception raised by the commit-info query
for zone `br` is caught nowhere in `check_token_validity`: the monitor
iteration stops at once — zones `ind` and `bd` are never checked — and the
exception escapes the loop, refuting "no exception arising inside one
zone's per-iteration staleness check terminates the Staleness Monitor
loop". -/
theorem c5_counterexample :
    checkIteration envExnBr 0
      = ([Eff.commitQuery (tokenPathOf "br")], some "ConnectionError") := by
  rfl

/-- The account loop's trace holds no store write, no publish-step
notification and no cache update. -/
lemma fetchRun_benign (env : Env) (z : String) (accs : List Account) :
    ∀ e ∈ (fetchRun env z accs).trace,
      isStoreWrite e = false ∧ isUpdateFailedNotify e = false
      ∧ (∀ p c b, e ≠ Eff.storeWrite p c b) ∧ (∀ z', e ≠ Eff.setLastCommit z')
      ∧ (∀ pa n, e ≠ Eff.notify (Msg.updated pa n)) :=
  fun e he => fetch_eff_benign e (fetchRun_trace_shape env z accs e he)

/-- C7: when the conditional store write fails, the refresh cycle makes
exactly one write attempt, reports the failure via exactly one
`⚠️ Failed to update` notification, leaves the store state unchanged,
does not update the publish-time cache, and emits no success
notification. -/
theorem c7_failed_write_no_retry (env : Env) (z : String)
    (config : List Account) (sha : Option String)
    (store : String → Option String)
    (hz : ZONES.contains z = true)
    (hcfg : env.configExists (configPathOf z) = true)
    (hload : env.configLoad (configPathOf z) = .ok config)
    (hsha : env.readSha (tokenPathOf z) = .ok sha)
    (hfail : env.writeOk (tokenPathOf z)
        (serializeBatch (fetchRun env z (config.take MAX_TOKENS)).tokens) sha
      = false) :
    (refresh_zone env z).countP isStoreWrite = 1
    ∧ (refresh_zone env z).countP isUpdateFailedNotify = 1
    ∧ applyStore store (refresh_zone env z) = store
    ∧ Eff.setLastCommit z ∉ refresh_zone env z
    ∧ ∀ n, Eff.notify (Msg.updated (tokenPathOf z) n) ∉ refresh_zone env z := by
  have hmain := refresh_zone_main env z config sha hz hcfg hload hsha
  rw [hfail] at hmain
  simp only [Bool.false_eq_true, if_false] at hmain
  have hben := fetchRun_benign env z (config.take MAX_TOKENS)
  have hft0 : (fetchRun env z (config.take MAX_TOKENS)).trace.countP isStoreWrite = 0 := by
    rw [List.countP_eq_zero]
    intro e he
    simp [(hben e he).1]
  have hft1 : (fetchRun env z (config.take MAX_TOKENS)).trace.countP isUpdateFailedNotify
      = 0 := by
    rw [List.countP_eq_zero]
    intro e he
    simp [(hben e he).2.1]
  refine ⟨?_, ?_, ?_, ?_, ?_⟩
  · rw [hmain]
    simp [List.countP_append, List.countP_cons, isStoreWrite, hft0]
  · rw [hmain]
    simp [List.countP_append, List.countP_cons, isUpdateFailedNotify, hft1]
  · rw [hmain]
    apply applyStore_no_success
    intro p c hmem
    simp at hmem
    exact (hben _ hmem).2.2.1 p c true rfl
  · rw [hmain]
    intro hmem
    simp at hmem
    exact (hben _ hmem).2.2.2.1 z rfl
  · intro n hmem
    rw [hmain] at hmem
    simp at hmem
    exact (hben _ hmem).2.2.2.2 (tokenPathOf z) n rfl

/-- Witness for C7 at a concrete world whose store rejects the write. -/
theorem c7_witness :
    (refresh_zone envFailWrite "br").countP isStoreWrite = 1 :=
  (c7_failed_write_no_retry envFailWrite "br"
    [{ uid := some "u", password := some "p" }] (some "s0") (fun _ => none)
    (by decide) rfl rfl rfl rfl).1

/-- C10: when the fetch phase yields zero successful tokens, the refresh
cycle still reaches the publish step: it writes the serialized empty batch
`"[]"` to the zone's token path, and when the store accepts the write the
previously stored content at that path — whatever it was — is replaced by
`"[]"`. -/
theorem c10_empty_batch_published (env : Env) (z : String)
    (config : List Account) (sha : Option String)
    (store : String → Option String)
    (hz : ZONES.contains z = true)
    (hcfg : env.configExists (configPathOf z) = true)
    (hload : env.configLoad (configPathOf z) = .ok config)
    (hsha : env.readSha (tokenPathOf z) = .ok sha)
    (hempty : successTokens env (config.take MAX_TOKENS) = []) :
    serializeBatch (successTokens env (config.take MAX_TOKENS)) = "[]"
    ∧ Eff.storeWrite (tokenPathOf z) "[]" (env.writeOk (tokenPathOf z) "[]" sha)
        ∈ refresh_zone env z
    ∧ (env.writeOk (tokenPathOf z) "[]" sha = true
        → applyStore store (refresh_zone env z) (tokenPathOf z) = some "[]") := by
  have htok : (fetchRun env z (config.take MAX_TOKENS)).tokens = [] := by
    rw [fetchRun_tokens, hempty]
  have hser : serializeBatch (successTokens env (config.take MAX_TOKENS)) = "[]" := by
    rw [hempty]
    rfl
  have hmain := refresh_zone_main env z config sha hz hcfg hload hsha
  rw [htok] at hmain
  have h0 : serializeBatch ([] : List String) = "[]" := rfl
  rw [h0] at hmain
  refine ⟨hser, ?_, ?_⟩
  · rw [hmain]
    simp
  · intro hw
    rw [hw] at hmain
    simp only [eq_self_iff_true, if_true] at hmain
    rw [hmain]
    rw [applyStore_append, applyStore_append, applyStore_append, applyStore_append]
    simp [applyStore]

/-- Witness for C10 at a concrete world where the only fetch fails: the
store's previous content `"old"` at the token path is replaced by `"[]"`. -/
theorem c10_witness :
    applyStore (fun _ => some "old") (refresh_zone envNoTok "br") (tokenPathOf "br")
      = some "[]" :=
  (c10_empty_batch_published envNoTok "br"
    [{ uid := some "u", password := some "p" }] (some "s0") (fun _ => some "old")
    (by decide) rfl rfl rfl rfl).2.2 rfl

/-- Witness for C6: a 201 (created) response yields `true`. -/
theorem c6_witness :
    update_github_file (PutOutcome.status 201) = true :=
  (c6_store_write_result (PutOutcome.status 201)).1.mpr (Or.inr rfl)

/-- Witness for C8: a 200 response whose body carries a token yields it. -/
theorem c8_witness :
    get_auth_token (AuthResp.resp 200 (Except.ok (some "tok"))) = some "tok" :=
  (c8_auth_fetch_result (AuthResp.resp 200 (Except.ok (some "tok"))) "tok").mpr rfl
